import Mathlib

/-!
Verification of the stopping-distance kernel in `stopping.py`.

The Python floats are modelled as real numbers; `float('inf')` in the
closed-form model is modelled by `EReal`'s `⊤`.  The two `while` loops of the
numeric model and of the profile sampler advance simulated time by `dt` each
iteration and are capped at 300 s; they are embedded as fuel-indexed
recursions, where the top-level functions supply fuel `⌈cap / dt⌉₊ + 1`
(resp. `+ 2`), which is enough for every `dt > 0` because the loop guard
fails once `t` exceeds the cap.
-/

set_option maxRecDepth 8000
set_option maxHeartbeats 2000000

namespace Braking

/-- Air density constant from the source, kg/m^3. -/
noncomputable def AIR_DENSITY : ℝ := 1.225

/-- Gravitational acceleration constant from the source, m/s^2. -/
noncomputable def G : ℝ := 9.81

/-- Source `convert_kmh_to_ms`. -/
noncomputable def convert_kmh_to_ms (speed_kmh : ℝ) : ℝ :=
  speed_kmh * 1000.0 / 3600.0

/-- Source `convert_ms_to_kmh`. -/
noncomputable def convert_ms_to_kmh (speed_ms : ℝ) : ℝ :=
  speed_ms * 3.6

/-- Source `calc_final_friction`: `mu = weather_mu * tyre_factor`, plus `0.05`
when ABS is active, clamped below by `0.01`. -/
noncomputable def calc_final_friction (weather_mu tyre_factor : ℝ)
    (abs_active : Bool) : ℝ :=
  let mu := weather_mu * tyre_factor
  let mu2 := if abs_active then mu + 0.05 else mu
  max mu2 0.01

/-- Source `alpha = math.atan(abs(slope_percent) / 100.0)`, shared by all
three models. -/
noncomputable def alpha_of (slope_percent : ℝ) : ℝ :=
  Real.arctan (|slope_percent| / 100.0)

/-- Source slope contribution: `(-G*sin(alpha)) if is_uphill else (G*sin(alpha))`
with `is_uphill = (slope_percent >= 0)`. -/
noncomputable def slope_acc_of (slope_percent : ℝ) : ℝ :=
  if 0 ≤ slope_percent then -G * Real.sin (alpha_of slope_percent)
  else G * Real.sin (alpha_of slope_percent)

/-- Source `a_eff = - mu * G * math.cos(alpha) + slope_acc` in
`stopping_distance_simple_friction`. -/
noncomputable def a_eff_of (mu slope_percent : ℝ) : ℝ :=
  -mu * G * Real.cos (alpha_of slope_percent) + slope_acc_of slope_percent

/-- Source `stopping_distance_simple_friction`.  Returns
`(total_dist, braking_dist, reaction_dist)`; the first two components are
`EReal` because the source returns `float('inf')` for them when
`a_eff <= 0`. -/
noncomputable def stopping_distance_simple_friction
    (speed_kmh mu slope_percent reaction_time : ℝ) : EReal × EReal × ℝ :=
  let speed_ms := convert_kmh_to_ms speed_kmh
  let reaction_dist := speed_ms * reaction_time
  if a_eff_of mu slope_percent ≤ 0 then (⊤, ⊤, reaction_dist)
  else
    let braking_dist := speed_ms ^ 2 / (2 * a_eff_of mu slope_percent)
    (((reaction_dist + braking_dist : ℝ) : EReal),
      ((braking_dist : ℝ) : EReal), reaction_dist)

/-- Source drag term
`(0.5 * AIR_DENSITY * cd * frontal_area * (v ** 2)) / mass_kg`, shared by the
numeric model and the profile sampler. -/
noncomputable def drag_acc_of (cd frontal_area mass_kg v : ℝ) : ℝ :=
  (0.5 * AIR_DENSITY * cd * frontal_area * v ^ 2) / mass_kg

/-- Source net acceleration `a = - mu * G * math.cos(alpha) + slope_acc - drag_acc`
used inside both time-stepping loops. -/
noncomputable def net_acc_of (mu mass_kg cd frontal_area slope_percent v : ℝ) : ℝ :=
  -mu * G * Real.cos (alpha_of slope_percent) + slope_acc_of slope_percent -
    drag_acc_of cd frontal_area mass_kg v

/-- Mutable state of the braking loop of `stopping_distance_numeric_drag`:
velocity `v`, accumulated braking distance `x`, elapsed braking time `t`. -/
structure NumState where
  v : ℝ
  x : ℝ
  t : ℝ

/-- The `while t < max_time` braking loop of `stopping_distance_numeric_drag`,
fuel-indexed.  The two `break` statements of the source are the two branches
that do not recurse: when `v_new < 0` the source accumulates the half step,
leaves `v` and `t` unchanged (it assigns only the dead variable `v_new`), and
breaks; when after the ordinary update `v <= 0.01` the source zeroes `v` and
breaks. -/
noncomputable def numLoop (mu mass_kg cd frontal_area slope_percent dt : ℝ) :
    ℕ → NumState → NumState
  | 0, s => s
  | n + 1, s =>
    if s.t < 300 then
      let a := net_acc_of mu mass_kg cd frontal_area slope_percent s.v
      let v_new := s.v + a * dt
      if v_new < 0 then
        { v := s.v, x := s.x + 0.5 * (s.v + 0.0) * dt, t := s.t }
      else
        if v_new ≤ 0.01 then
          { v := 0, x := s.x + 0.5 * (s.v + v_new) * dt, t := s.t + dt }
        else
          numLoop mu mass_kg cd frontal_area slope_percent dt n
            { v := v_new, x := s.x + 0.5 * (s.v + v_new) * dt, t := s.t + dt }
    else s

/-- Fuel that suffices for the 300 s-capped braking loop at step `dt > 0`. -/
noncomputable def numFuel (dt : ℝ) : ℕ := Nat.ceil ((300 : ℝ) / dt) + 1

/-- Source `stopping_distance_numeric_drag` (the source default for `dt` is
`0.01`).  Returns `(total_dist, reaction_dist, braking_dist, total_time, v)`. -/
noncomputable def stopping_distance_numeric_drag
    (speed_kmh mu mass_kg cd frontal_area slope_percent reaction_time dt : ℝ) :
    ℝ × ℝ × ℝ × ℝ × ℝ :=
  let speed_ms := convert_kmh_to_ms speed_kmh
  let reaction_dist := speed_ms * reaction_time
  let s := numLoop mu mass_kg cd frontal_area slope_percent dt (numFuel dt)
    { v := speed_ms, x := 0, t := 0 }
  (reaction_dist + s.x, reaction_dist, s.x, reaction_time + s.t, s.v)

/-- The reaction-phase loop `while t <= reaction_time` of
`get_distance_speed_profile`, fuel-indexed.  Arguments after the fuel are the
mutable `x` and `t`; the velocity `v` is constant in this phase.  Returns the
emitted `(distance_vals, speed_vals_kmh)` samples and the final `x` and `t`. -/
noncomputable def reactLoop (dt reaction_time v : ℝ) :
    ℕ → ℝ → ℝ → List ℝ × List ℝ × ℝ × ℝ
  | 0, x, t => ([], [], x, t)
  | n + 1, x, t =>
    if t ≤ reaction_time then
      let r := reactLoop dt reaction_time v n (x + v * dt) (t + dt)
      (x :: r.1, convert_ms_to_kmh v :: r.2.1, r.2.2.1, r.2.2.2)
    else ([], [], x, t)

/-- The braking-phase loop `while t <= (reaction_time + max_time)` of
`get_distance_speed_profile`, fuel-indexed.  Arguments after the fuel are the
mutable `x`, `v`, `t`.  Returns the emitted samples and the final `x`, `v`,
`t`.  The source clamps `v_new` to `0` (without breaking), records the sample
`(x, kmh v_new)` before updating `x`, then updates and breaks when
`v <= 0.01`. -/
noncomputable def brakeSampLoop
    (mu mass_kg cd frontal_area slope_percent reaction_time dt : ℝ) :
    ℕ → ℝ → ℝ → ℝ → List ℝ × List ℝ × ℝ × ℝ × ℝ
  | 0, x, v, t => ([], [], x, v, t)
  | n + 1, x, v, t =>
    if t ≤ reaction_time + 300 then
      let a := net_acc_of mu mass_kg cd frontal_area slope_percent v
      let v_new := if v + a * dt < 0 then 0 else v + a * dt
      if v_new ≤ 0.01 then
        ([x], [convert_ms_to_kmh v_new], x + 0.5 * (v + v_new) * dt, v_new, t + dt)
      else
        let r := brakeSampLoop mu mass_kg cd frontal_area slope_percent
          reaction_time dt n (x + 0.5 * (v + v_new) * dt) v_new (t + dt)
        (x :: r.1, convert_ms_to_kmh v_new :: r.2.1, r.2.2)
    else ([], [], x, v, t)

/-- Fuel that suffices for the reaction-phase loop at step `dt > 0`. -/
noncomputable def reactFuel (reaction_time dt : ℝ) : ℕ :=
  Nat.ceil (reaction_time / dt) + 2

/-- Fuel that suffices for the braking-phase sampling loop at step `dt > 0`. -/
noncomputable def brakeSampFuel (dt : ℝ) : ℕ := Nat.ceil ((300 : ℝ) / dt) + 2

/-- The reaction-phase part of `get_distance_speed_profile`, started from
`x = 0`, `t = 0` as in the source. -/
noncomputable def reactPart (speed_kmh reaction_time dt : ℝ) :
    List ℝ × List ℝ × ℝ × ℝ :=
  reactLoop dt reaction_time (convert_kmh_to_ms speed_kmh)
    (reactFuel reaction_time dt) 0 0

/-- The braking-phase part of `get_distance_speed_profile`, started from the
`x` and `t` left by the reaction phase, with `v` still the initial speed. -/
noncomputable def brakePart
    (speed_kmh mu mass_kg cd frontal_area slope_percent reaction_time dt : ℝ) :
    List ℝ × List ℝ × ℝ × ℝ × ℝ :=
  brakeSampLoop mu mass_kg cd frontal_area slope_percent reaction_time dt
    (brakeSampFuel dt)
    (reactPart speed_kmh reaction_time dt).2.2.1
    (convert_kmh_to_ms speed_kmh)
    (reactPart speed_kmh reaction_time dt).2.2.2

/-- Source `get_distance_speed_profile` (the source default for `dt` is
`0.05`): the reaction-phase samples followed by the braking-phase samples,
as parallel `(distance_vals, speed_vals_kmh)` lists. -/
noncomputable def get_distance_speed_profile
    (speed_kmh mu mass_kg cd frontal_area slope_percent reaction_time dt : ℝ) :
    List ℝ × List ℝ :=
  ((reactPart speed_kmh reaction_time dt).1 ++
      (brakePart speed_kmh mu mass_kg cd frontal_area slope_percent
        reaction_time dt).1,
    (reactPart speed_kmh reaction_time dt).2.1 ++
      (brakePart speed_kmh mu mass_kg cd frontal_area slope_percent
        reaction_time dt).2.1)

/-- Transcription of the spec's braking-step drag formula (section 4.3):
`dragAcceleration = 0.5 * airDensity * Cd * frontalArea * v^2 / mass` with
`airDensity = 1.225`. -/
noncomputable def spec_drag_acceleration (cd frontal_area mass_kg v : ℝ) : ℝ :=
  0.5 * 1.225 * cd * frontal_area * v ^ 2 / mass_kg

/-- Transcription of the spec's slope formula (section 4.2):
`slopeAcceleration = -g*sin(alpha)` if `slopePercent ≥ 0` else `+g*sin(alpha)`
with `alpha = atan(|slopePercent|/100)` and `g = 9.81`. -/
noncomputable def spec_slope_acceleration (slope_percent : ℝ) : ℝ :=
  if 0 ≤ slope_percent then
    -(9.81) * Real.sin (Real.arctan (|slope_percent| / 100))
  else 9.81 * Real.sin (Real.arctan (|slope_percent| / 100))

/-- Transcription of the spec's net braking acceleration (section 4.3):
`a = -mu*g*cos(alpha) + slopeAcceleration - dragAcceleration`. -/
noncomputable def spec_net_acceleration
    (mu mass_kg cd frontal_area slope_percent v : ℝ) : ℝ :=
  -mu * 9.81 * Real.cos (Real.arctan (|slope_percent| / 100)) +
    spec_slope_acceleration slope_percent -
    spec_drag_acceleration cd frontal_area mass_kg v

theorem alpha_of_zero : alpha_of 0 = 0 := by
  simp [alpha_of]

theorem slope_acc_of_zero : slope_acc_of 0 = 0 := by
  simp [slope_acc_of, alpha_of_zero]

theorem a_eff_of_slope_zero (mu : ℝ) : a_eff_of mu 0 = -(mu * G) := by
  simp [a_eff_of, alpha_of_zero, slope_acc_of_zero]

/-- On the 8 percent downhill with `mu = 0.01` the source's `a_eff` is
strictly positive: gravity along the slope exceeds friction. -/
theorem a_eff_downhill_pos : 0 < a_eff_of 0.01 (-8) := by
  unfold a_eff_of slope_acc_of alpha_of
  rw [if_neg (by norm_num : ¬ (0 : ℝ) ≤ -8)]
  have h8 : |(-8 : ℝ)| / 100.0 = 8 / 100 := by norm_num
  rw [h8]
  have hcos : 0 < Real.cos (Real.arctan (8 / 100)) := Real.cos_arctan_pos _
  have hsin : Real.sin (Real.arctan (8 / 100)) =
      8 / 100 * Real.cos (Real.arctan (8 / 100)) := by
    have ht := Real.tan_arctan (8 / 100 : ℝ)
    rw [Real.tan_eq_sin_div_cos] at ht
    exact (div_eq_iff (ne_of_gt hcos)).mp ht
  rw [hsin]
  have hG : G = 9.81 := rfl
  rw [hG]
  nlinarith [hcos]

/-- Claim C8: `calc_final_friction` returns exactly
`max (weather_mu * tyre_factor + (0.05 if ABS else 0)) 0.01`, which is at
least `0.01` and hence strictly positive, for every input. -/
theorem calc_final_friction_spec (w t : ℝ) (b : Bool) :
    calc_final_friction w t b =
      max (w * t + if b then 0.05 else 0) 0.01 ∧
    0.01 ≤ calc_final_friction w t b ∧ 0 < calc_final_friction w t b := by
  refine ⟨?_, ?_, ?_⟩
  · cases b <;> simp [calc_final_friction]
  · exact le_max_right _ _
  · exact lt_of_lt_of_le (by norm_num) (le_max_right _ _)

/-- Claim C9: both models return reaction distance
`speed_ms * reaction_time`, whatever the other parameters are. -/
theorem reaction_distance_eq
    (speed_kmh mu slope_percent reaction_time mass_kg cd frontal_area dt : ℝ) :
    (stopping_distance_simple_friction speed_kmh mu slope_percent
        reaction_time).2.2 =
      convert_kmh_to_ms speed_kmh * reaction_time ∧
    (stopping_distance_numeric_drag speed_kmh mu mass_kg cd frontal_area
        slope_percent reaction_time dt).2.1 =
      convert_kmh_to_ms speed_kmh * reaction_time := by
  constructor
  · simp only [stopping_distance_simple_friction]
    split <;> rfl
  · rfl

/-- Claim C1 is a code bug: on the steep-downhill, low-friction input the
source's `a_eff` is strictly positive (the claim's unstoppable condition),
yet the code returns a finite total distance instead of `+∞`, because the
source tests `a_eff <= 0` instead of `a_eff >= 0`. -/
theorem simple_friction_finite_on_unstoppable_input :
    0 < a_eff_of 0.01 (-8) ∧
    (stopping_distance_simple_friction 60 0.01 (-8) 1).1 ≠ ⊤ := by
  refine ⟨a_eff_downhill_pos, ?_⟩
  simp only [stopping_distance_simple_friction]
  rw [if_neg (not_le.mpr a_eff_downhill_pos)]
  exact EReal.coe_ne_top _

/-- Claim C2 is a code bug: on the flat concrete scenario
`speedKmh = 60, mu = 0.7, slope = 0, reactionTime = 1` the source computes
`a_eff = -0.7 * 9.81 < 0`, takes the `a_eff <= 0` branch, and returns
infinite total and braking distances (with reaction distance `50/3 m`)
instead of the claimed finite `≈ 40.46 m` braking distance. -/
theorem simple_friction_flat_scenario_returns_inf :
    stopping_distance_simple_friction 60 0.7 0 1 = (⊤, ⊤, 50 / 3) := by
  have ha : a_eff_of 0.7 0 ≤ 0 := by
    rw [a_eff_of_slope_zero]
    have hG : G = 9.81 := rfl
    rw [hG]
    norm_num
  simp only [stopping_distance_simple_friction]
  rw [if_pos ha]
  norm_num [convert_kmh_to_ms]

/-- Claim C5 is a code bug: on this input the braking loop terminates in its
first step through the `v_new < 0` clamp branch, long before the 300 s cap,
yet the returned final velocity is the pre-step velocity `0.02 m/s`, not `0`:
the source zeroes only the dead variable `v_new` before `break` and never
assigns `v`. -/
theorem numeric_final_velocity_nonzero_after_clamp :
    (stopping_distance_numeric_drag 0.072 0.7 1 0 0 0 0 0.01).2.2.2.2 = 0.02 ∧
    (0.02 : ℝ) ≠ 0 := by
  obtain ⟨n, hn⟩ : ∃ n, numFuel 0.01 = n + 1 := ⟨_, rfl⟩
  refine ⟨?_, by norm_num⟩
  simp only [stopping_distance_numeric_drag]
  rw [hn]
  norm_num [numLoop, net_acc_of, drag_acc_of, alpha_of, slope_acc_of,
    convert_kmh_to_ms, G, AIR_DENSITY, Real.arctan_zero, Real.sin_zero,
    Real.cos_zero]

/-- Claim C3 is false for the numeric model: with
`mu = 0.01, mass = 4.9, cd = 1, frontalArea = 4, slope = 0, reactionTime = 0,
dt = 1` the total distance at `6.804 km/h` is strictly smaller than at
`3.6 km/h` (the coarse Euler step overshoots the faster run to the stop
threshold within one step). -/
theorem numeric_total_distance_not_monotone :
    (stopping_distance_numeric_drag 6.804 0.01 4.9 1 4 0 0 1).1 <
    (stopping_distance_numeric_drag 3.6 0.01 4.9 1 4 0 0 1).1 := by
  have hceil : Nat.ceil ((300 : ℝ) / 1) = 300 := by
    rw [show ((300 : ℝ) / 1) = (300 : ℝ) by norm_num]
    simp [Nat.ceil_ofNat]
  have hn : numFuel 1 = 297 + 1 + 1 + 1 + 1 := by
    rw [numFuel, hceil]
  have s1 : ∀ m : ℕ, numLoop 0.01 4.9 1 4 0 1 (m + 1) ⟨1, 0, 0⟩ =
      numLoop 0.01 4.9 1 4 0 1 m
        ⟨(4019 : ℝ) / 10000, (14019 : ℝ) / 20000, 1⟩ := by
    intro m
    norm_num [numLoop, net_acc_of, drag_acc_of, alpha_of, slope_acc_of,
      G, AIR_DENSITY, Real.arctan_zero, Real.sin_zero, Real.cos_zero]
  have s2 : ∀ m : ℕ, numLoop 0.01 4.9 1 4 0 1 (m + 1)
      ⟨(4019 : ℝ) / 10000, (14019 : ℝ) / 20000, 1⟩ =
      numLoop 0.01 4.9 1 4 0 1 m
        ⟨(44607639 : ℝ) / 200000000, (405367639 : ℝ) / 400000000, 2⟩ := by
    intro m
    norm_num [numLoop, net_acc_of, drag_acc_of, alpha_of, slope_acc_of,
      G, AIR_DENSITY, Real.arctan_zero, Real.sin_zero, Real.cos_zero]
  have s3 : ∀ m : ℕ, numLoop 0.01 4.9 1 4 0 1 (m + 1)
      ⟨(44607639 : ℝ) / 200000000, (405367639 : ℝ) / 400000000, 2⟩ =
      numLoop 0.01 4.9 1 4 0 1 m
        ⟨(8005214142845679 : ℝ) / 80000000000000000,
          (187995325342845679 : ℝ) / 160000000000000000, 3⟩ := by
    intro m
    norm_num [numLoop, net_acc_of, drag_acc_of, alpha_of, slope_acc_of,
      G, AIR_DENSITY, Real.arctan_zero, Real.sin_zero, Real.cos_zero]
  have s4 : ∀ m : ℕ, numLoop 0.01 4.9 1 4 0 1 (m + 1)
      ⟨(8005214142845679 : ℝ) / 80000000000000000,
        (187995325342845679 : ℝ) / 160000000000000000, 3⟩ =
      ⟨(8005214142845679 : ℝ) / 80000000000000000,
        (98000269742845679 : ℝ) / 80000000000000000, 3⟩ := by
    intro m
    norm_num [numLoop, net_acc_of, drag_acc_of, alpha_of, slope_acc_of,
      G, AIR_DENSITY, Real.arctan_zero, Real.sin_zero, Real.cos_zero]
  have eA : numLoop 0.01 4.9 1 4 0 1 (297 + 1 + 1 + 1 + 1) ⟨1, 0, 0⟩ =
      ⟨(8005214142845679 : ℝ) / 80000000000000000,
        (98000269742845679 : ℝ) / 80000000000000000, 3⟩ := by
    rw [s1, s2, s3, s4]
  have sB : ∀ m : ℕ, numLoop 0.01 4.9 1 4 0 1 (m + 1) ⟨1.89, 0, 0⟩ =
      ⟨0, (37917 : ℝ) / 40000, 1⟩ := by
    intro m
    norm_num [numLoop, net_acc_of, drag_acc_of, alpha_of, slope_acc_of,
      G, AIR_DENSITY, Real.arctan_zero, Real.sin_zero, Real.cos_zero]
  have eB : numLoop 0.01 4.9 1 4 0 1 (297 + 1 + 1 + 1 + 1) ⟨1.89, 0, 0⟩ =
      ⟨0, (37917 : ℝ) / 40000, 1⟩ := sB (297 + 1 + 1 + 1)
  simp only [stopping_distance_numeric_drag]
  rw [show convert_kmh_to_ms 6.804 = 1.89 by norm_num [convert_kmh_to_ms],
    show convert_kmh_to_ms 3.6 = 1 by norm_num [convert_kmh_to_ms], hn, eA, eB]
  norm_num

/-- Claim C3, amended: in the closed-form model, on the branch where the code
returns finite distances (its `a_eff > 0`), the total distance is strictly
increasing in the initial speed, for speeds `0 ≤ s1 < s2` and nonnegative
reaction time.  (The numeric-model half of the claim is refuted by
`numeric_total_distance_not_monotone`.) -/
theorem simple_total_distance_strict_mono
    (mu slope_percent reaction_time s1 s2 : ℝ)
    (h1 : 0 ≤ s1) (h12 : s1 < s2) (hrt : 0 ≤ reaction_time)
    (ha : 0 < a_eff_of mu slope_percent) :
    (stopping_distance_simple_friction s1 mu slope_percent reaction_time).1 <
    (stopping_distance_simple_friction s2 mu slope_percent reaction_time).1 := by
  have hna : ¬ a_eff_of mu slope_percent ≤ 0 := not_le.mpr ha
  simp only [stopping_distance_simple_friction]
  rw [if_neg hna, if_neg hna]
  show ((convert_kmh_to_ms s1 * reaction_time +
      convert_kmh_to_ms s1 ^ 2 / (2 * a_eff_of mu slope_percent) : ℝ) : EReal) <
    ((convert_kmh_to_ms s2 * reaction_time +
      convert_kmh_to_ms s2 ^ 2 / (2 * a_eff_of mu slope_percent) : ℝ) : EReal)
  rw [EReal.coe_lt_coe_iff]
  have hv1 : 0 ≤ convert_kmh_to_ms s1 := by
    unfold convert_kmh_to_ms
    have := mul_nonneg h1 (show (0 : ℝ) ≤ 1000.0 by norm_num)
    positivity
  have hv12 : convert_kmh_to_ms s1 < convert_kmh_to_ms s2 := by
    unfold convert_kmh_to_ms
    have h : s1 * 1000.0 < s2 * 1000.0 :=
      mul_lt_mul_of_pos_right h12 (by norm_num)
    exact (div_lt_div_iff_of_pos_right (by norm_num)).mpr h
  have hr : convert_kmh_to_ms s1 * reaction_time ≤
      convert_kmh_to_ms s2 * reaction_time :=
    mul_le_mul_of_nonneg_right hv12.le hrt
  have hb : convert_kmh_to_ms s1 ^ 2 / (2 * a_eff_of mu slope_percent) <
      convert_kmh_to_ms s2 ^ 2 / (2 * a_eff_of mu slope_percent) := by
    have h2a : (0 : ℝ) < 2 * a_eff_of mu slope_percent := by linarith
    exact (div_lt_div_iff_of_pos_right h2a).mpr
      (pow_lt_pow_left₀ hv12 hv1 (by norm_num))
  exact add_lt_add_of_le_of_lt hr hb

/-- Witness for `simple_total_distance_strict_mono` at
`mu = 0.01, slope = -8, reactionTime = 0, s1 = 0, s2 = 3.6`. -/
theorem simple_total_distance_strict_mono_witness :
    (0 : ℝ) ≤ 0 ∧ (0 : ℝ) < 3.6 ∧ (0 : ℝ) ≤ 0 ∧ 0 < a_eff_of 0.01 (-8) ∧
    (stopping_distance_simple_friction 0 0.01 (-8) 0).1 <
    (stopping_distance_simple_friction 3.6 0.01 (-8) 0).1 :=
  ⟨le_refl 0, by norm_num, le_refl 0, a_eff_downhill_pos,
    simple_total_distance_strict_mono 0.01 (-8) 0 0 3.6 (le_refl 0)
      (by norm_num) (le_refl 0) a_eff_downhill_pos⟩

/-- Each pass of the braking loop preserves `0 ≤ v` and can only increase the
accumulated distance `x` and the elapsed time `t`, provided `0 ≤ dt`. -/
theorem numLoop_invariant (mu mass_kg cd frontal_area slope_percent dt : ℝ)
    (hdt : 0 ≤ dt) :
    ∀ (n : ℕ) (s : NumState), 0 ≤ s.v →
      0 ≤ (numLoop mu mass_kg cd frontal_area slope_percent dt n s).v ∧
      s.x ≤ (numLoop mu mass_kg cd frontal_area slope_percent dt n s).x ∧
      s.t ≤ (numLoop mu mass_kg cd frontal_area slope_percent dt n s).t := by
  intro n
  induction n with
  | zero =>
    intro s hv
    exact ⟨hv, le_refl _, le_refl _⟩
  | succ n ih =>
    intro s hv
    simp only [numLoop]
    by_cases hg : s.t < 300
    · rw [if_pos hg]
      by_cases hclamp :
          s.v + net_acc_of mu mass_kg cd frontal_area slope_percent s.v * dt < 0
      · rw [if_pos hclamp]
        refine ⟨hv, ?_, le_refl _⟩
        have : 0 ≤ 0.5 * (s.v + 0.0) * dt := by
          have h05 : (0 : ℝ) ≤ 0.5 * (s.v + 0.0) := by norm_num; linarith
          exact mul_nonneg h05 hdt
        linarith
      · rw [if_neg hclamp]
        have hvnew :
            0 ≤ s.v + net_acc_of mu mass_kg cd frontal_area slope_percent s.v * dt :=
          not_lt.mp hclamp
        have hstep : 0 ≤ 0.5 *
            (s.v + (s.v + net_acc_of mu mass_kg cd frontal_area slope_percent s.v * dt)) *
            dt := by
          have h05 : (0 : ℝ) ≤ 0.5 *
              (s.v + (s.v + net_acc_of mu mass_kg cd frontal_area slope_percent s.v * dt)) := by
            nlinarith
          exact mul_nonneg h05 hdt
        by_cases hthr :
            s.v + net_acc_of mu mass_kg cd frontal_area slope_percent s.v * dt ≤ 0.01
        · rw [if_pos hthr]
          exact ⟨le_refl 0, by simpa using hstep, by simp; linarith⟩
        · rw [if_neg hthr]
          obtain ⟨h1, h2, h3⟩ := ih
            ⟨s.v + net_acc_of mu mass_kg cd frontal_area slope_percent s.v * dt,
              s.x + 0.5 *
                (s.v + (s.v + net_acc_of mu mass_kg cd frontal_area slope_percent s.v * dt)) * dt,
              s.t + dt⟩ hvnew
          refine ⟨h1, le_trans ?_ h2, le_trans ?_ h3⟩
          · simpa using hstep
          · simp
            linarith
    · rw [if_neg hg]
      exact ⟨hv, le_refl _, le_refl _⟩

/-- Claim C10: with nonnegative initial speed, reaction time and step, the
braking loop keeps `v ≥ 0` at every iteration entry and never decreases `x`
or `t` (so each per-step distance increment is nonnegative), and all five
outputs of the numeric model are nonnegative. -/
theorem numeric_outputs_nonneg
    (speed_kmh mu mass_kg cd frontal_area slope_percent reaction_time dt : ℝ)
    (hs : 0 ≤ speed_kmh) (hrt : 0 ≤ reaction_time) (hdt : 0 ≤ dt) :
    (∀ (n : ℕ) (s : NumState), 0 ≤ s.v →
      0 ≤ (numLoop mu mass_kg cd frontal_area slope_percent dt n s).v ∧
      s.x ≤ (numLoop mu mass_kg cd frontal_area slope_percent dt n s).x ∧
      s.t ≤ (numLoop mu mass_kg cd frontal_area slope_percent dt n s).t) ∧
    0 ≤ (stopping_distance_numeric_drag speed_kmh mu mass_kg cd frontal_area
      slope_percent reaction_time dt).1 ∧
    0 ≤ (stopping_distance_numeric_drag speed_kmh mu mass_kg cd frontal_area
      slope_percent reaction_time dt).2.1 ∧
    0 ≤ (stopping_distance_numeric_drag speed_kmh mu mass_kg cd frontal_area
      slope_percent reaction_time dt).2.2.1 ∧
    0 ≤ (stopping_distance_numeric_drag speed_kmh mu mass_kg cd frontal_area
      slope_percent reaction_time dt).2.2.2.1 ∧
    0 ≤ (stopping_distance_numeric_drag speed_kmh mu mass_kg cd frontal_area
      slope_percent reaction_time dt).2.2.2.2 := by
  have hinv := numLoop_invariant mu mass_kg cd frontal_area slope_percent dt hdt
  refine ⟨hinv, ?_, ?_, ?_, ?_, ?_⟩ <;>
  · simp only [stopping_distance_numeric_drag]
    have hv0 : 0 ≤ convert_kmh_to_ms speed_kmh := by
      unfold convert_kmh_to_ms
      have := mul_nonneg hs (show (0 : ℝ) ≤ 1000.0 by norm_num)
      positivity
    obtain ⟨h1, h2, h3⟩ := hinv (numFuel dt)
      ⟨convert_kmh_to_ms speed_kmh, 0, 0⟩ hv0
    simp only at h1 h2 h3
    have hreact : 0 ≤ convert_kmh_to_ms speed_kmh * reaction_time :=
      mul_nonneg hv0 hrt
    first
      | exact add_nonneg hreact h2
      | exact hreact
      | exact h2
      | exact add_nonneg hrt h3
      | exact h1

/-- Witness for `numeric_outputs_nonneg` at
`speed = 3.6 km/h, mu = 0.7, mass = 1300, cd = 0.29, area = 2.2, slope = 0,
reactionTime = 1, dt = 0.01`. -/
theorem numeric_outputs_nonneg_witness :
    (0 : ℝ) ≤ 3.6 ∧ (0 : ℝ) ≤ 1 ∧ (0 : ℝ) ≤ 0.01 ∧
    ((∀ (n : ℕ) (s : NumState), 0 ≤ s.v →
      0 ≤ (numLoop 0.7 1300 0.29 2.2 0 0.01 n s).v ∧
      s.x ≤ (numLoop 0.7 1300 0.29 2.2 0 0.01 n s).x ∧
      s.t ≤ (numLoop 0.7 1300 0.29 2.2 0 0.01 n s).t) ∧
    0 ≤ (stopping_distance_numeric_drag 3.6 0.7 1300 0.29 2.2 0 1 0.01).1 ∧
    0 ≤ (stopping_distance_numeric_drag 3.6 0.7 1300 0.29 2.2 0 1 0.01).2.1 ∧
    0 ≤ (stopping_distance_numeric_drag 3.6 0.7 1300 0.29 2.2 0 1 0.01).2.2.1 ∧
    0 ≤ (stopping_distance_numeric_drag 3.6 0.7 1300 0.29 2.2 0 1 0.01).2.2.2.1 ∧
    0 ≤ (stopping_distance_numeric_drag 3.6 0.7 1300 0.29 2.2 0 1 0.01).2.2.2.2) :=
  ⟨by norm_num, by norm_num, by norm_num,
    numeric_outputs_nonneg 3.6 0.7 1300 0.29 2.2 0 1 0.01 (by norm_num)
      (by norm_num) (by norm_num)⟩

/-- Once the braking loop's guard `t < 300` fails, any amount of fuel returns
the state unchanged. -/
theorem numLoop_frozen (mu mass_kg cd frontal_area slope_percent dt : ℝ)
    (s : NumState) (h : ¬ s.t < 300) :
    ∀ m : ℕ, numLoop mu mass_kg cd frontal_area slope_percent dt m s = s := by
  intro m
  cases m with
  | zero => rfl
  | succ m => simp only [numLoop, if_neg h]

/-- Fuel beyond `k` is irrelevant once `k` steps of size `dt` bring `t` past
the 300 s cap: the braking loop has terminated by then. -/
theorem numLoop_stable (mu mass_kg cd frontal_area slope_percent dt : ℝ) :
    ∀ (k m : ℕ) (s : NumState), k ≤ m → 300 ≤ s.t + k * dt →
      numLoop mu mass_kg cd frontal_area slope_percent dt m s =
      numLoop mu mass_kg cd frontal_area slope_percent dt k s := by
  intro k
  induction k with
  | zero =>
    intro m s hkm h
    have hng : ¬ s.t < 300 := not_lt.mpr (by simpa using h)
    rw [numLoop_frozen mu mass_kg cd frontal_area slope_percent dt s hng m,
      numLoop_frozen mu mass_kg cd frontal_area slope_percent dt s hng 0]
  | succ k ih =>
    intro m s hkm h
    obtain ⟨m', rfl⟩ : ∃ m', m = m' + 1 := ⟨m - 1, by omega⟩
    by_cases hg : s.t < 300
    · simp only [numLoop, if_pos hg]
      by_cases hclamp :
          s.v + net_acc_of mu mass_kg cd frontal_area slope_percent s.v * dt < 0
      · rw [if_pos hclamp, if_pos hclamp]
      · rw [if_neg hclamp, if_neg hclamp]
        by_cases hthr :
            s.v + net_acc_of mu mass_kg cd frontal_area slope_percent s.v * dt ≤ 0.01
        · rw [if_pos hthr, if_pos hthr]
        · rw [if_neg hthr, if_neg hthr]
          apply ih m' _ (by omega)
          show (300 : ℝ) ≤ s.t + dt + k * dt
          push_cast at h
          linarith
    · rw [numLoop_frozen mu mass_kg cd frontal_area slope_percent dt s hg,
        numLoop_frozen mu mass_kg cd frontal_area slope_percent dt s hg]

/-- Once the reaction loop's guard `t <= reaction_time` fails, any amount of
fuel returns immediately. -/
theorem reactLoop_frozen (dt reaction_time v x t : ℝ)
    (h : ¬ t ≤ reaction_time) :
    ∀ m : ℕ, reactLoop dt reaction_time v m x t = ([], [], x, t) := by
  intro m
  cases m with
  | zero => rfl
  | succ m => simp only [reactLoop, if_neg h]

/-- Fuel beyond `k` is irrelevant once `k` steps bring `t` past
`reaction_time`: the reaction loop has terminated by then. -/
theorem reactLoop_stable (dt reaction_time v : ℝ) :
    ∀ (k m : ℕ) (x t : ℝ), k ≤ m → reaction_time < t + k * dt →
      reactLoop dt reaction_time v m x t =
      reactLoop dt reaction_time v k x t := by
  intro k
  induction k with
  | zero =>
    intro m x t hkm h
    have hng : ¬ t ≤ reaction_time := not_le.mpr (by simpa using h)
    rw [reactLoop_frozen dt reaction_time v x t hng m,
      reactLoop_frozen dt reaction_time v x t hng 0]
  | succ k ih =>
    intro m x t hkm h
    obtain ⟨m', rfl⟩ : ∃ m', m = m' + 1 := ⟨m - 1, by omega⟩
    by_cases hg : t ≤ reaction_time
    · simp only [reactLoop, if_pos hg]
      rw [ih m' (x + v * dt) (t + dt) (by omega)
        (by push_cast at h ⊢; linarith)]
    · rw [reactLoop_frozen dt reaction_time v x t hg,
        reactLoop_frozen dt reaction_time v x t hg]

/-- Once the sampling loop's guard `t <= reaction_time + 300` fails, any
amount of fuel returns immediately. -/
theorem brakeSampLoop_frozen
    (mu mass_kg cd frontal_area slope_percent reaction_time dt x v t : ℝ)
    (h : ¬ t ≤ reaction_time + 300) :
    ∀ m : ℕ, brakeSampLoop mu mass_kg cd frontal_area slope_percent
      reaction_time dt m x v t = ([], [], x, v, t) := by
  intro m
  cases m with
  | zero => rfl
  | succ m => simp only [brakeSampLoop, if_neg h]

/-- Fuel beyond `k` is irrelevant once `k` steps bring `t` past
`reaction_time + 300`: the sampling loop has terminated by then. -/
theorem brakeSampLoop_stable
    (mu mass_kg cd frontal_area slope_percent reaction_time dt : ℝ) :
    ∀ (k m : ℕ) (x v t : ℝ), k ≤ m → reaction_time + 300 < t + k * dt →
      brakeSampLoop mu mass_kg cd frontal_area slope_percent reaction_time dt
        m x v t =
      brakeSampLoop mu mass_kg cd frontal_area slope_percent reaction_time dt
        k x v t := by
  intro k
  induction k with
  | zero =>
    intro m x v t hkm h
    have hng : ¬ t ≤ reaction_time + 300 := not_le.mpr (by simpa using h)
    rw [brakeSampLoop_frozen mu mass_kg cd frontal_area slope_percent
        reaction_time dt x v t hng m,
      brakeSampLoop_frozen mu mass_kg cd frontal_area slope_percent
        reaction_time dt x v t hng 0]
  | succ k ih =>
    intro m x v t hkm h
    obtain ⟨m', rfl⟩ : ∃ m', m = m' + 1 := ⟨m - 1, by omega⟩
    by_cases hg : t ≤ reaction_time + 300
    · simp only [brakeSampLoop, if_pos hg]
      by_cases hthr : (if v + net_acc_of mu mass_kg cd frontal_area
          slope_percent v * dt < 0 then (0 : ℝ)
          else v + net_acc_of mu mass_kg cd frontal_area slope_percent v * dt)
          ≤ 0.01
      · rw [if_pos hthr, if_pos hthr]
      · rw [if_neg hthr, if_neg hthr]
        rw [ih m' _ _ (t + dt) (by omega) (by push_cast at h ⊢; linarith)]
    · rw [brakeSampLoop_frozen mu mass_kg cd frontal_area slope_percent
        reaction_time dt x v t hg,
      brakeSampLoop_frozen mu mass_kg cd frontal_area slope_percent
        reaction_time dt x v t hg]

/-- Claim C7: for every `dt > 0` each of the three loops has terminated by
the time its canonical fuel (cap divided by `dt`, plus a constant) is used
up, started as the source starts it (`t = 0` for the braking and reaction
loops; `t ≥ reaction_time` on entry to the sampling loop): any extra fuel
returns the same result. -/
theorem loops_terminate_within_caps
    (mu mass_kg cd frontal_area slope_percent reaction_time dt : ℝ)
    (hdt : 0 < dt) :
    (∀ (m : ℕ) (s : NumState), numFuel dt ≤ m → s.t = 0 →
      numLoop mu mass_kg cd frontal_area slope_percent dt m s =
      numLoop mu mass_kg cd frontal_area slope_percent dt (numFuel dt) s) ∧
    (∀ (m : ℕ) (v x : ℝ), reactFuel reaction_time dt ≤ m →
      reactLoop dt reaction_time v m x 0 =
      reactLoop dt reaction_time v (reactFuel reaction_time dt) x 0) ∧
    (∀ (m : ℕ) (x v t : ℝ), brakeSampFuel dt ≤ m → reaction_time ≤ t →
      brakeSampLoop mu mass_kg cd frontal_area slope_percent reaction_time dt
        m x v t =
      brakeSampLoop mu mass_kg cd frontal_area slope_percent reaction_time dt
        (brakeSampFuel dt) x v t) := by
  have hdt0 : dt ≠ 0 := ne_of_gt hdt
  have h300 : (300 : ℝ) ≤ (Nat.ceil ((300 : ℝ) / dt) : ℝ) * dt := by
    have h1 : (300 : ℝ) / dt ≤ (Nat.ceil ((300 : ℝ) / dt) : ℝ) := Nat.le_ceil _
    have h2 := mul_le_mul_of_nonneg_right h1 hdt.le
    rwa [div_mul_cancel₀ _ hdt0] at h2
  refine ⟨?_, ?_, ?_⟩
  · intro m s hm hs
    apply numLoop_stable mu mass_kg cd frontal_area slope_percent dt
      (numFuel dt) m s hm
    rw [hs, numFuel]
    push_cast
    linarith
  · intro m v x hm
    apply reactLoop_stable dt reaction_time v (reactFuel reaction_time dt) m
      x 0 hm
    have h1 : reaction_time / dt ≤ (Nat.ceil (reaction_time / dt) : ℝ) :=
      Nat.le_ceil _
    have h2 := mul_le_mul_of_nonneg_right h1 hdt.le
    rw [div_mul_cancel₀ _ hdt0] at h2
    rw [reactFuel]
    push_cast
    linarith
  · intro m x v t hm ht
    apply brakeSampLoop_stable mu mass_kg cd frontal_area slope_percent
      reaction_time dt (brakeSampFuel dt) m x v t hm
    rw [brakeSampFuel]
    push_cast
    linarith

/-- Witness for `loops_terminate_within_caps` at
`mu = 0.7, mass = 1, cd = 0, area = 0, slope = 0, reactionTime = 1, dt = 1`. -/
theorem loops_terminate_within_caps_witness :
    (0 : ℝ) < 1 ∧
    ((∀ (m : ℕ) (s : NumState), numFuel 1 ≤ m → s.t = 0 →
      numLoop 0.7 1 0 0 0 1 m s = numLoop 0.7 1 0 0 0 1 (numFuel 1) s) ∧
    (∀ (m : ℕ) (v x : ℝ), reactFuel 1 1 ≤ m →
      reactLoop 1 1 v m x 0 = reactLoop 1 1 v (reactFuel 1 1) x 0) ∧
    (∀ (m : ℕ) (x v t : ℝ), brakeSampFuel 1 ≤ m → (1 : ℝ) ≤ t →
      brakeSampLoop 0.7 1 0 0 0 1 1 m x v t =
      brakeSampLoop 0.7 1 0 0 0 1 1 (brakeSampFuel 1) x v t)) :=
  ⟨by norm_num, loops_terminate_within_caps 0.7 1 0 0 0 1 1 (by norm_num)⟩

/-- The source's net acceleration coincides with the spec's formula
(section 4.3), constants included. -/
theorem spec_net_acceleration_eq
    (mu mass_kg cd frontal_area slope_percent v : ℝ) :
    spec_net_acceleration mu mass_kg cd frontal_area slope_percent v =
      net_acc_of mu mass_kg cd frontal_area slope_percent v := by
  simp only [spec_net_acceleration, spec_slope_acceleration,
    spec_drag_acceleration, net_acc_of, slope_acc_of, alpha_of, drag_acc_of,
    G, AIR_DENSITY]
  split <;> norm_num

/-- Claim C4: an iteration of the braking loop taken inside the 300 s cap,
whose updated velocity `vNext = v + a*dt` is nonnegative, applies exactly the
acceleration of the spec (`a = -mu*g*cos(alpha) + slopeAcceleration -
dragAcceleration` with the spec's drag and slope formulas), accumulates
exactly the trapezoidal distance `0.5*(v + vNext)*dt`, and advances time by
`dt` (breaking with velocity zeroed when `vNext` is at most the 0.01 m/s stop
threshold). -/
theorem numeric_step_matches_spec
    (mu mass_kg cd frontal_area slope_percent dt : ℝ) (n : ℕ) (s : NumState)
    (h1 : s.t < 300)
    (h2 : 0 ≤ s.v +
      spec_net_acceleration mu mass_kg cd frontal_area slope_percent s.v * dt) :
    numLoop mu mass_kg cd frontal_area slope_percent dt (n + 1) s =
      if s.v + spec_net_acceleration mu mass_kg cd frontal_area slope_percent
          s.v * dt ≤ 0.01 then
        { v := 0,
          x := s.x + 0.5 * (s.v + (s.v + spec_net_acceleration mu mass_kg cd
            frontal_area slope_percent s.v * dt)) * dt,
          t := s.t + dt }
      else
        numLoop mu mass_kg cd frontal_area slope_percent dt n
          { v := s.v + spec_net_acceleration mu mass_kg cd frontal_area
              slope_percent s.v * dt,
            x := s.x + 0.5 * (s.v + (s.v + spec_net_acceleration mu mass_kg cd
              frontal_area slope_percent s.v * dt)) * dt,
            t := s.t + dt } := by
  rw [spec_net_acceleration_eq] at h2 ⊢
  simp only [numLoop]
  rw [if_pos h1, if_neg (not_lt.mpr h2)]

/-- Witness for `numeric_step_matches_spec` at
`mu = 0.01, mass = 1, cd = 0, area = 0, slope = 0, dt = 1, s = (1, 0, 0)`,
where `vNext = 1 - 0.0981 ≥ 0`. -/
theorem numeric_step_matches_spec_witness :
    ((0 : ℝ) < 300) ∧
    (0 ≤ (1 : ℝ) + spec_net_acceleration 0.01 1 0 0 0 1 * 1) ∧
    (numLoop 0.01 1 0 0 0 1 (0 + 1) ⟨1, 0, 0⟩ =
      if (1 : ℝ) + spec_net_acceleration 0.01 1 0 0 0 1 * 1 ≤ 0.01 then
        { v := 0,
          x := 0 + 0.5 * (1 + (1 + spec_net_acceleration 0.01 1 0 0 0 1 * 1)) * 1,
          t := 0 + 1 }
      else
        numLoop 0.01 1 0 0 0 1 0
          { v := 1 + spec_net_acceleration 0.01 1 0 0 0 1 * 1,
            x := 0 + 0.5 * (1 + (1 + spec_net_acceleration 0.01 1 0 0 0 1 * 1)) * 1,
            t := 0 + 1 }) :=
  ⟨by norm_num,
    by
      norm_num [spec_net_acceleration, spec_slope_acceleration,
        spec_drag_acceleration, Real.arctan_zero, Real.sin_zero, Real.cos_zero],
    numeric_step_matches_spec 0.01 1 0 0 0 1 0 ⟨1, 0, 0⟩ (by norm_num)
      (by
        norm_num [spec_net_acceleration, spec_slope_acceleration,
          spec_drag_acceleration, Real.arctan_zero, Real.sin_zero,
          Real.cos_zero])⟩

/-- With zero drag coefficient the loops' net acceleration reduces to the
closed-form `a_eff` (it no longer depends on `v`). -/
theorem net_acc_of_cd_zero (mu mass_kg frontal_area slope_percent v : ℝ) :
    net_acc_of mu mass_kg 0 frontal_area slope_percent v =
      a_eff_of mu slope_percent := by
  simp [net_acc_of, a_eff_of, drag_acc_of]

/-- On a flat or uphill grade, with nonnegative friction and drag parameters,
the loops' net acceleration is nonpositive. -/
theorem net_acc_nonpos (mu mass_kg cd frontal_area slope_percent v : ℝ)
    (hmu : 0 ≤ mu) (hcd : 0 ≤ cd) (hA : 0 ≤ frontal_area) (hm : 0 < mass_kg)
    (hslope : 0 ≤ slope_percent) :
    net_acc_of mu mass_kg cd frontal_area slope_percent v ≤ 0 := by
  unfold net_acc_of slope_acc_of drag_acc_of alpha_of
  rw [if_pos hslope]
  have hcos : 0 < Real.cos (Real.arctan (|slope_percent| / 100.0)) :=
    Real.cos_arctan_pos _
  have hsin : 0 ≤ Real.sin (Real.arctan (|slope_percent| / 100.0)) := by
    rw [Real.sin_arctan]
    positivity
  have hG : (0 : ℝ) < G := by rw [show G = 9.81 from rfl]; norm_num
  have hdrag : 0 ≤ (0.5 * AIR_DENSITY * cd * frontal_area * v ^ 2) / mass_kg := by
    have hrho : (0 : ℝ) ≤ AIR_DENSITY := by
      rw [show AIR_DENSITY = 1.225 from rfl]; norm_num
    positivity
  have t1 : 0 ≤ mu * G * Real.cos (Real.arctan (|slope_percent| / 100.0)) :=
    mul_nonneg (mul_nonneg hmu hG.le) hcos.le
  have t2 : 0 ≤ G * Real.sin (Real.arctan (|slope_percent| / 100.0)) :=
    mul_nonneg hG.le hsin
  nlinarith [t1, t2, hdrag]

/-- On a flat or uphill grade the braking-phase sampling loop emits a
non-increasing speed sequence, each sample at most the entry speed. -/
theorem brakeSamp_speeds_antitone
    (mu mass_kg cd frontal_area slope_percent reaction_time dt : ℝ)
    (hmu : 0 ≤ mu) (hcd : 0 ≤ cd) (hA : 0 ≤ frontal_area) (hm : 0 < mass_kg)
    (hslope : 0 ≤ slope_percent) (hdt : 0 ≤ dt) :
    ∀ (n : ℕ) (x v t : ℝ), 0 ≤ v →
      List.Chain' (fun p q => q ≤ p)
        (convert_ms_to_kmh v ::
          (brakeSampLoop mu mass_kg cd frontal_area slope_percent reaction_time
            dt n x v t).2.1) := by
  intro n
  induction n with
  | zero =>
    intro x v t hv
    exact List.chain'_singleton _
  | succ n ih =>
    intro x v t hv
    simp only [brakeSampLoop]
    by_cases hg : t ≤ reaction_time + 300
    · rw [if_pos hg]
      have hacc := net_acc_nonpos mu mass_kg cd frontal_area slope_percent v
        hmu hcd hA hm hslope
      by_cases hc :
          v + net_acc_of mu mass_kg cd frontal_area slope_percent v * dt < 0
      · rw [if_pos hc]
        rw [if_pos (by norm_num : (0 : ℝ) ≤ 0.01)]
        refine List.chain'_cons.mpr ⟨?_, List.chain'_singleton _⟩
        unfold convert_ms_to_kmh
        nlinarith
      · rw [if_neg hc]
        have hvnew :
            0 ≤ v + net_acc_of mu mass_kg cd frontal_area slope_percent v * dt :=
          not_lt.mp hc
        have hle :
            v + net_acc_of mu mass_kg cd frontal_area slope_percent v * dt ≤ v := by
          nlinarith
        by_cases hthr :
            v + net_acc_of mu mass_kg cd frontal_area slope_percent v * dt ≤ 0.01
        · rw [if_pos hthr]
          refine List.chain'_cons.mpr ⟨?_, List.chain'_singleton _⟩
          unfold convert_ms_to_kmh
          nlinarith
        · rw [if_neg hthr]
          refine List.chain'_cons.mpr ⟨?_, ih _ _ _ hvnew⟩
          unfold convert_ms_to_kmh
          nlinarith
    · rw [if_neg hg]
      exact List.chain'_singleton _

/-- When the sampling loop is given enough fuel to push `t` past the cap,
either its last emitted speed is at or below the 0.01 m/s threshold (in
km/h), or its final time exceeds `reaction_time + 300`; and if it emitted no
sample at all, the cap was already exceeded. -/
theorem brakeSamp_last
    (mu mass_kg cd frontal_area slope_percent reaction_time dt : ℝ) :
    ∀ (n : ℕ) (x v t : ℝ), reaction_time + 300 < t + n * dt →
      (∀ s : ℝ, (brakeSampLoop mu mass_kg cd frontal_area slope_percent
          reaction_time dt n x v t).2.1.getLast? = some s →
        s ≤ convert_ms_to_kmh 0.01 ∨
        reaction_time + 300 < (brakeSampLoop mu mass_kg cd frontal_area
          slope_percent reaction_time dt n x v t).2.2.2.2) ∧
      ((brakeSampLoop mu mass_kg cd frontal_area slope_percent reaction_time
          dt n x v t).2.1.getLast? = none →
        reaction_time + 300 < (brakeSampLoop mu mass_kg cd frontal_area
          slope_percent reaction_time dt n x v t).2.2.2.2) := by
  intro n
  induction n with
  | zero =>
    intro x v t h
    refine ⟨fun s hs => by simp [brakeSampLoop] at hs,
      fun _ => by simpa [brakeSampLoop] using h⟩
  | succ n ih =>
    intro x v t h
    simp only [brakeSampLoop]
    by_cases hg : t ≤ reaction_time + 300
    · rw [if_pos hg]
      by_cases hthr : (if v + net_acc_of mu mass_kg cd frontal_area
          slope_percent v * dt < 0 then (0 : ℝ)
          else v + net_acc_of mu mass_kg cd frontal_area slope_percent v * dt)
          ≤ 0.01
      · rw [if_pos hthr]
        refine ⟨fun s hs => Or.inl ?_, fun habs => by simp at habs⟩
        simp only [List.getLast?_singleton, Option.some.injEq] at hs
        subst hs
        show convert_ms_to_kmh _ ≤ convert_ms_to_kmh 0.01
        unfold convert_ms_to_kmh
        nlinarith
      · rw [if_neg hthr]
        have ihr := ih (x + 0.5 * (v + (if v + net_acc_of mu mass_kg cd
            frontal_area slope_percent v * dt < 0 then (0 : ℝ)
            else v + net_acc_of mu mass_kg cd frontal_area slope_percent v * dt)) * dt)
          (if v + net_acc_of mu mass_kg cd frontal_area slope_percent v * dt < 0
            then (0 : ℝ)
            else v + net_acc_of mu mass_kg cd frontal_area slope_percent v * dt)
          (t + dt) (by push_cast at h ⊢; linarith)
        refine ⟨fun s hs => ?_, fun habs => by simp at habs⟩
        rcases hrest : (brakeSampLoop mu mass_kg cd frontal_area
            slope_percent reaction_time dt n
            (x + 0.5 * (v + (if v + net_acc_of mu mass_kg cd frontal_area
              slope_percent v * dt < 0 then (0 : ℝ)
              else v + net_acc_of mu mass_kg cd frontal_area slope_percent v * dt)) * dt)
            (if v + net_acc_of mu mass_kg cd frontal_area slope_percent v * dt < 0
              then (0 : ℝ)
              else v + net_acc_of mu mass_kg cd frontal_area slope_percent v * dt)
            (t + dt)).2.1 with _ | ⟨b, l'⟩
        · exact Or.inr (ihr.2 (by rw [hrest]; rfl))
        · rw [hrest, List.getLast?_cons_cons] at hs
          rcases ihr.1 s (by rw [hrest]; exact hs) with hL | hT
          · exact Or.inl hL
          · exact Or.inr hT
    · rw [if_neg hg]
      refine ⟨fun s hs => by simp at hs, fun _ => not_le.mp hg⟩

/-- The reaction loop's final time exceeds `reaction_time` whenever its fuel
covers the remaining time. -/
theorem reactLoop_finalT (dt reaction_time v : ℝ) :
    ∀ (n : ℕ) (x t : ℝ), reaction_time < t + n * dt →
      reaction_time < (reactLoop dt reaction_time v n x t).2.2.2 := by
  intro n
  induction n with
  | zero =>
    intro x t h
    simpa using h
  | succ n ih =>
    intro x t h
    simp only [reactLoop]
    by_cases hg : t ≤ reaction_time
    · rw [if_pos hg]
      exact ih _ _ (by push_cast at h ⊢; linarith)
    · rw [if_neg hg]
      exact not_le.mp hg

/-- Claim C6, amended: for nonnegative speed and friction/drag parameters,
positive mass and step, and a flat or uphill slope, the braking-phase samples
of the profile are non-increasing, and the last braking sample is at most the
0.01 m/s threshold in km/h unless the loop's time passed
`reaction_time + 300 s`.  (On a steep downhill the sequence increases:
`profile_speed_sequence_increases_downhill`.) -/
theorem profile_braking_phase_invariant
    (speed_kmh mu mass_kg cd frontal_area slope_percent reaction_time dt : ℝ)
    (hs : 0 ≤ speed_kmh) (hmu : 0 ≤ mu) (hcd : 0 ≤ cd) (hA : 0 ≤ frontal_area)
    (hm : 0 < mass_kg) (hslope : 0 ≤ slope_percent) (hdt : 0 < dt) :
    (get_distance_speed_profile speed_kmh mu mass_kg cd frontal_area
        slope_percent reaction_time dt).2 =
      (reactPart speed_kmh reaction_time dt).2.1 ++
        (brakePart speed_kmh mu mass_kg cd frontal_area slope_percent
          reaction_time dt).2.1 ∧
    List.Chain' (fun p q => q ≤ p)
      (brakePart speed_kmh mu mass_kg cd frontal_area slope_percent
        reaction_time dt).2.1 ∧
    (∀ s : ℝ, (brakePart speed_kmh mu mass_kg cd frontal_area slope_percent
        reaction_time dt).2.1.getLast? = some s →
      s ≤ convert_ms_to_kmh 0.01 ∨
      reaction_time + 300 < (brakePart speed_kmh mu mass_kg cd frontal_area
        slope_percent reaction_time dt).2.2.2.2) ∧
    ((brakePart speed_kmh mu mass_kg cd frontal_area slope_percent
        reaction_time dt).2.1.getLast? = none →
      reaction_time + 300 < (brakePart speed_kmh mu mass_kg cd frontal_area
        slope_percent reaction_time dt).2.2.2.2) := by
  have hdt0 : dt ≠ 0 := ne_of_gt hdt
  have hv0 : 0 ≤ convert_kmh_to_ms speed_kmh := by
    unfold convert_kmh_to_ms
    have := mul_nonneg hs (show (0 : ℝ) ≤ 1000.0 by norm_num)
    positivity
  have htr : reaction_time < (reactPart speed_kmh reaction_time dt).2.2.2 := by
    rw [reactPart]
    apply reactLoop_finalT
    have h1 : reaction_time / dt ≤ (Nat.ceil (reaction_time / dt) : ℝ) :=
      Nat.le_ceil _
    have h2 := mul_le_mul_of_nonneg_right h1 hdt.le
    rw [div_mul_cancel₀ _ hdt0] at h2
    rw [reactFuel]
    push_cast
    linarith
  have hcap : reaction_time + 300 <
      (reactPart speed_kmh reaction_time dt).2.2.2 +
      (brakeSampFuel dt) * dt := by
    have h1 : (300 : ℝ) / dt ≤ (Nat.ceil ((300 : ℝ) / dt) : ℝ) := Nat.le_ceil _
    have h2 := mul_le_mul_of_nonneg_right h1 hdt.le
    rw [div_mul_cancel₀ _ hdt0] at h2
    rw [brakeSampFuel]
    push_cast
    linarith
  have hlast := brakeSamp_last mu mass_kg cd frontal_area slope_percent
    reaction_time dt (brakeSampFuel dt)
    (reactPart speed_kmh reaction_time dt).2.2.1
    (convert_kmh_to_ms speed_kmh)
    (reactPart speed_kmh reaction_time dt).2.2.2 hcap
  have hchain := brakeSamp_speeds_antitone mu mass_kg cd frontal_area
    slope_percent reaction_time dt hmu hcd hA hm hslope hdt.le
    (brakeSampFuel dt)
    (reactPart speed_kmh reaction_time dt).2.2.1
    (convert_kmh_to_ms speed_kmh)
    (reactPart speed_kmh reaction_time dt).2.2.2 hv0
  refine ⟨rfl, ?_, ?_, ?_⟩
  · exact List.Chain'.tail hchain
  · intro s hs
    exact hlast.1 s hs
  · intro h
    exact hlast.2 h

/-- Witness for `profile_braking_phase_invariant` at
`speed = 60, mu = 0.7, mass = 1300, cd = 0.29, area = 2.2, slope = 0,
reactionTime = 1, dt = 0.05`. -/
theorem profile_braking_phase_invariant_witness :
    (0 : ℝ) ≤ 60 ∧ (0 : ℝ) ≤ 0.7 ∧ (0 : ℝ) ≤ 0.29 ∧ (0 : ℝ) ≤ 2.2 ∧
    (0 : ℝ) < 1300 ∧ (0 : ℝ) ≤ 0 ∧ (0 : ℝ) < 0.05 ∧
    ((get_distance_speed_profile 60 0.7 1300 0.29 2.2 0 1 0.05).2 =
      (reactPart 60 1 0.05).2.1 ++
        (brakePart 60 0.7 1300 0.29 2.2 0 1 0.05).2.1 ∧
    List.Chain' (fun p q => q ≤ p)
      (brakePart 60 0.7 1300 0.29 2.2 0 1 0.05).2.1 ∧
    (∀ s : ℝ, (brakePart 60 0.7 1300 0.29 2.2 0 1 0.05).2.1.getLast? = some s →
      s ≤ convert_ms_to_kmh 0.01 ∨
      (1 : ℝ) + 300 < (brakePart 60 0.7 1300 0.29 2.2 0 1 0.05).2.2.2.2) ∧
    ((brakePart 60 0.7 1300 0.29 2.2 0 1 0.05).2.1.getLast? = none →
      (1 : ℝ) + 300 < (brakePart 60 0.7 1300 0.29 2.2 0 1 0.05).2.2.2.2)) :=
  ⟨by norm_num, by norm_num, by norm_num, by norm_num, by norm_num,
    le_refl 0, by norm_num,
    profile_braking_phase_invariant 60 0.7 1300 0.29 2.2 0 1 0.05
      (by norm_num) (by norm_num) (by norm_num) (by norm_num) (by norm_num)
      (le_refl 0) (by norm_num)⟩

/-- Claim C6 is false as stated: on the 8 percent downhill with `mu = 0.01`
(and no drag, `cd = 0`), the net acceleration is positive, so the speed
samples of the braking phase strictly increase; the speed sequence returned
by the profile sampler is not non-increasing from the first braking-phase
sample onward. -/
theorem profile_speed_sequence_increases_downhill :
    ¬ List.Chain' (fun p q => q ≤ p)
      (List.drop 1 (get_distance_speed_profile 3.6 0.01 1 0 1 (-8) 0 0.05).2) := by
  intro hchain
  have hA0 : 0 < a_eff_of 0.01 (-8) := a_eff_downhill_pos
  have hconv : convert_kmh_to_ms 3.6 = 1 := by norm_num [convert_kmh_to_ms]
  have hrf : reactFuel 0 0.05 = 0 + 1 + 1 := by
    rw [reactFuel]
    norm_num
  have hreact : reactPart 3.6 0 0.05 =
      ([0], [convert_ms_to_kmh 1], 0.05, 0.05) := by
    unfold reactPart
    rw [hconv, hrf]
    norm_num [reactLoop]
  obtain ⟨K, hK⟩ : ∃ K, brakeSampFuel 0.05 = K + 1 + 1 :=
    ⟨Nat.ceil ((300 : ℝ) / 0.05), by rw [brakeSampFuel]⟩
  have hn1 : ∀ v : ℝ, net_acc_of 0.01 1 0 1 (-8) v = a_eff_of 0.01 (-8) :=
    fun v => net_acc_of_cd_zero 0.01 1 1 (-8) v
  have hg1 : (0.05 : ℝ) ≤ 0 + 300 := by norm_num
  have hg2 : (0.05 : ℝ) + 0.05 ≤ 0 + 300 := by norm_num
  have hnc1 : ¬ ((1 : ℝ) + a_eff_of 0.01 (-8) * 0.05 < 0) := by nlinarith
  have hnt1 : ¬ ((1 : ℝ) + a_eff_of 0.01 (-8) * 0.05 ≤ 0.01) := by nlinarith
  have hnc2 : ¬ ((1 : ℝ) + a_eff_of 0.01 (-8) * 0.05 +
      a_eff_of 0.01 (-8) * 0.05 < 0) := by nlinarith
  have hnt2 : ¬ ((1 : ℝ) + a_eff_of 0.01 (-8) * 0.05 +
      a_eff_of 0.01 (-8) * 0.05 ≤ 0.01) := by nlinarith
  simp only [get_distance_speed_profile, brakePart, hreact, hconv, hK] at hchain
  simp only [brakeSampLoop, hn1, if_pos hg1, if_pos hg2, if_neg hnc1,
    if_neg hnt1, if_neg hnc2, if_neg hnt2, List.cons_append,
    List.nil_append, List.singleton_append] at hchain
  simp only [List.drop_one, List.tail_cons] at hchain
  have h21 := (List.chain'_cons.mp hchain).1
  unfold convert_ms_to_kmh at h21
  nlinarith

end Braking
